import Mathlib

/-!
Shallow embedding of the mcp-proxy core (src/src/relay.rs, src/src/sse.rs).

Rust strings are modelled as lists of characters (`Str`).  Mutable interior
state (the connection pool's `by_name` map) is passed explicitly as a
`PoolState`; upstream MCP servers are modelled as an environment `Env`
mapping a target name to the behaviour of the upstream reached by dialing
that target.  Fallible upstream calls return `Option`; a Rust `.unwrap()`
on `None` is modelled by the `panic` outcome.  I/O against upstreams is
recorded in an explicit effect log so that "no upstream I/O happened" is
expressible as an empty log.
-/

namespace McpProxy

/-- Rust `String`, modelled as its list of characters. -/
abbrev Str := List Char

/-- Association-list lookup, modelling `HashMap::get` over the maps of the
source (`XdsStore::targets`, `ConnectionPool::by_name`, `App::txs`).  The
first binding for a key wins, so prepending a binding models
`HashMap::insert`'s overwrite semantics. -/
def lookup {α : Type} (k : Str) : List (Str × α) → Option α
  | [] => none
  | (k', v) :: rest => if k' = k then some v else lookup k rest

/-- Rust `str::split_once(c)`: split at the first occurrence of `c`,
returning `none` when `c` does not occur (relay.rs lines 192 and 255). -/
def splitOnce (c : Char) : Str → Option (Str × Str)
  | [] => none
  | x :: xs =>
    if x = c then some ([], xs)
    else
      match splitOnce c xs with
      | some (pre, post) => some (x :: pre, post)
      | none => none

/-- Target transport variant (`xds::TargetSpec`, as used by
`ConnectionPool::connect`): SSE at host:port, or a spawned child process. -/
inductive TargetSpec
  | sse (host : String) (port : Nat)
  | stdio (cmd : String) (args : List String)
deriving DecidableEq

/-- A named upstream target (`xds::Target`). -/
structure Target where
  name : Str
  spec : TargetSpec
deriving DecidableEq

/-- Modelled from the spec: `rbac::Identity` (rbac.rs is not under src/).
Two optional facets: JWT claims and a PROXY-protocol peer identity; the
claim payload is opaque to the relay, which only threads the identity into
`Policies.validate`. -/
structure Identity where
  claims : Option String
  peer : Option String
deriving DecidableEq

/-- Modelled from the spec: `rbac::Identity::new` combines the two
optional facets. -/
def Identity.new (claims : Option String) (peer : Option String) : Identity :=
  ⟨claims, peer⟩

/-- Modelled from the spec: `rbac::ResourceType`, the resource reference
handed to the RBAC engine.  The `id` is the namespaced identifier as built
in relay.rs (the full downstream `service:name` string, or the raw URI). -/
inductive ResourceType
  | tool (id : Str)
  | prompt (id : Str)
  | resource (id : Str)

/-- Modelled from the spec: the RBAC engine (`rbac::RuleSet`, not under
src/) exposes a single pure `validate(resource, identity) → bool`.  The
relay only branches on this boolean, so the rule evaluation itself is kept
abstract as a function. -/
structure Policies where
  validate : ResourceType → Identity → Bool

/-- The slice of `xds::XdsStore` the relay and the pool read: the target
registry and the RBAC policy set. -/
structure XdsStore where
  targets : List (Str × Target)
  policies : Policies

/-- An MCP tool as it appears in a `ListToolsResult` (name, description,
input schema); the schema payload is opaque to the relay. -/
structure Tool where
  name : Str
  description : Option String
  input_schema : String
deriving DecidableEq

/-- `CallToolRequestParam::arguments` — an optional opaque JSON object. -/
abbrev Args := Option String

/-- Behaviour of the upstream MCP server reached for one target: each
method returns `none` when the upstream call fails (the source `.unwrap()`s
such results).  Entries of the list results other than tools are opaque. -/
structure UpstreamService where
  list_tools : Option (List Tool)
  call_tool : Str → Args → Option String
  list_prompts : Option (List String)
  get_prompt : Str → Args → Option String
  list_resources : Option (List String)
  read_resource : Str → Option String
  list_resource_templates : Option (List String)

/-- The world outside the pool: the upstream behaviour per target name, and
whether dialing a target (SSE connect / child spawn plus MCP handshake in
`ConnectionPool::connect`) succeeds. -/
structure Env where
  service : Str → UpstreamService
  dial_ok : Str → Bool

/-- Observable upstream I/O performed by a relay operation. -/
inductive Effect
  | dial (target : Str)
  | upstreamListTools (target : Str)
  | upstreamCallTool (target : Str) (tool : Str) (args : Args)
  | upstreamListPrompts (target : Str)
  | upstreamGetPrompt (target : Str) (prompt : Str) (args : Args)
  | upstreamListResources (target : Str)
  | upstreamReadResource (uri : Str)
  | upstreamListResourceTemplates (target : Str)
deriving DecidableEq

/-- The mutable state of one `ConnectionPool`: the `by_name` map from
target name to connection handle, plus a counter allocating fresh handles
(each dial produces a new `RunningService`, identified here by a `Nat`). -/
structure PoolState where
  by_name : List (Str × Nat)
  next : Nat
deriving DecidableEq

/-- A fresh pool, as built by `ConnectionPool::new`. -/
def PoolState.empty : PoolState := ⟨[], 0⟩

/-- Result of `ConnectionPool::get`: a connection, `None` (target not in
registry), or a panic from the `.unwrap()` of a failed `connect`. -/
inductive PoolGet
  | conn (c : Nat)
  | absent
  | panic
deriving DecidableEq

/-- Outcome of a relay operation: a result, an `McpError::invalid_request`,
or a panic (a Rust `.unwrap()` on `None`/`Err`). -/
inductive Outcome (α : Type)
  | ok (a : α)
  | invalidRequest (msg : String)
  | panic
deriving DecidableEq

/-- `ConnectionPool::connect` (relay.rs 335-366): dial the target per its
spec, wrap the running service, and insert it into `by_name` under
`target.name`.  A handshake failure returns an error (`none` here); the
dial attempt is I/O either way. -/
def ConnectionPool.connect (env : Env) (ps : PoolState) (target : Target) :
    Option Nat × PoolState × List Effect :=
  if env.dial_ok target.name then
    (some ps.next,
     ⟨(target.name, ps.next) :: ps.by_name, ps.next + 1⟩,
     [.dial target.name])
  else
    (none, ps, [.dial target.name])

/-- `ConnectionPool::get` (relay.rs 283-309): return the pooled connection
for `name` if present; otherwise look `name` up in the registry and, when
registered, `connect` (the source `.unwrap()`s a connect error, hence
`panic`); when not registered, return `None` (`absent`).  The pool reads
its `state` handle only for `state.targets`, so the registry list is
passed directly. -/
def ConnectionPool.get (targets : List (Str × Target)) (env : Env) (ps : PoolState) (name : Str) :
    PoolGet × PoolState × List Effect :=
  match lookup name ps.by_name with
  | some c => (.conn c, ps, [])
  | none =>
    match lookup name targets with
    | some target =>
      match ConnectionPool.connect env ps target with
      | (some c, ps2, e) => (.conn c, ps2, e)
      | (none, ps2, e) => (.panic, ps2, e)
    | none => (.absent, ps, [])

/-- Body of `ConnectionPool::iter` (relay.rs 311-333): over a snapshot of
the registry, `get` each target's connection and `.unwrap()` it (an absent
target or failed dial panics).  The source joins the gets concurrently; a
single relay operation is modelled by the snapshot-order sequential
execution.  `none` in the first component is a panic. -/
def ConnectionPool.iterTargets (targets : List (Str × Target)) (env : Env) :
    List (Str × Target) → PoolState → Option (List (Str × Nat)) × PoolState × List Effect
  | [], ps => (some [], ps, [])
  | (name, _t) :: rest, ps =>
    match ConnectionPool.get targets env ps name with
    | (.conn c, ps2, e) =>
      match ConnectionPool.iterTargets targets env rest ps2 with
      | (some conns, ps3, e3) => (some ((name, c) :: conns), ps3, e ++ e3)
      | (none, ps3, e3) => (none, ps3, e ++ e3)
    | (.absent, ps2, e) => (none, ps2, e)
    | (.panic, ps2, e) => (none, ps2, e)

/-- `ConnectionPool::iter` applied to the current registry snapshot. -/
def ConnectionPool.iter (targets : List (Str × Target)) (env : Env) (ps : PoolState) :
    Option (List (Str × Nat)) × PoolState × List Effect :=
  ConnectionPool.iterTargets targets env targets ps

/-- The `Relay` (relay.rs 19-24): registry/policy state handle and the
caller's identity.  The pool it owns is threaded separately as `PoolState`. -/
structure Relay where
  state : XdsStore
  id : Identity

/-- `Relay::new` (relay.rs 26-34): a relay over the given state and
identity together with its own freshly constructed, empty connection pool. -/
def Relay.new (state : XdsStore) (id : Identity) : Relay × PoolState :=
  (⟨state, id⟩, PoolState.empty)

/-- The per-connection loop body of `Relay::list_tools` (relay.rs 214-233):
for each pooled connection, call the upstream `list_tools` (`.unwrap()` —
a failure panics) and re-emit every tool under the namespaced name
`target:tool`, keeping description and input schema. -/
def Relay.list_tools_go (env : Env) :
    List (Str × Nat) → Option (List Tool) × List Effect
  | [] => (some [], [])
  | (name, _c) :: rest =>
    match (env.service name).list_tools with
    | none => (none, [.upstreamListTools name])
    | some result =>
      let renamed := result.map (fun tool =>
        { name := name ++ ':' :: tool.name,
          description := tool.description,
          input_schema := tool.input_schema : Tool })
      match Relay.list_tools_go env rest with
      | (some tools, e) => (some (renamed ++ tools), .upstreamListTools name :: e)
      | (none, e) => (none, .upstreamListTools name :: e)

/-- `Relay::list_tools` (relay.rs 204-238): materialise all connections via
`pool.iter()`, then merge the renamed tools; `next_cursor` is dropped.  Any
upstream failure is `.unwrap()`ed, i.e. the whole operation panics. -/
def Relay.list_tools (r : Relay) (env : Env) (ps : PoolState) :
    Outcome (List Tool) × PoolState × List Effect :=
  match ConnectionPool.iter r.state.targets env ps with
  | (some conns, ps2, e) =>
    match Relay.list_tools_go env conns with
    | (some tools, e2) => (.ok tools, ps2, e ++ e2)
    | (none, e2) => (.panic, ps2, e ++ e2)
  | (none, ps2, e) => (.panic, ps2, e)

/-- Per-connection body of `Relay::list_prompts` (relay.rs 147-176):
upstream `list_prompts` is `.unwrap()`ed and the entries concatenated. -/
def Relay.list_prompts_go (env : Env) :
    List (Str × Nat) → Option (List String) × List Effect
  | [] => (some [], [])
  | (name, _c) :: rest =>
    match (env.service name).list_prompts with
    | none => (none, [.upstreamListPrompts name])
    | some prompts =>
      match Relay.list_prompts_go env rest with
      | (some acc, e) => (some (prompts ++ acc), .upstreamListPrompts name :: e)
      | (none, e) => (none, .upstreamListPrompts name :: e)

/-- `Relay::list_prompts` (relay.rs 147-176). -/
def Relay.list_prompts (r : Relay) (env : Env) (ps : PoolState) :
    Outcome (List String) × PoolState × List Effect :=
  match ConnectionPool.iter r.state.targets env ps with
  | (some conns, ps2, e) =>
    match Relay.list_prompts_go env conns with
    | (some prompts, e2) => (.ok prompts, ps2, e ++ e2)
    | (none, e2) => (.panic, ps2, e ++ e2)
  | (none, ps2, e) => (.panic, ps2, e)

/-- Per-connection body of `Relay::list_resources` (relay.rs 57-86). -/
def Relay.list_resources_go (env : Env) :
    List (Str × Nat) → Option (List String) × List Effect
  | [] => (some [], [])
  | (name, _c) :: rest =>
    match (env.service name).list_resources with
    | none => (none, [.upstreamListResources name])
    | some resources =>
      match Relay.list_resources_go env rest with
      | (some acc, e) => (some (resources ++ acc), .upstreamListResources name :: e)
      | (none, e) => (none, .upstreamListResources name :: e)

/-- `Relay::list_resources` (relay.rs 57-86). -/
def Relay.list_resources (r : Relay) (env : Env) (ps : PoolState) :
    Outcome (List String) × PoolState × List Effect :=
  match ConnectionPool.iter r.state.targets env ps with
  | (some conns, ps2, e) =>
    match Relay.list_resources_go env conns with
    | (some resources, e2) => (.ok resources, ps2, e ++ e2)
    | (none, e2) => (.panic, ps2, e ++ e2)
  | (none, ps2, e) => (.panic, ps2, e)

/-- Per-connection body of `Relay::list_resource_templates`
(relay.rs 116-145). -/
def Relay.list_resource_templates_go (env : Env) :
    List (Str × Nat) → Option (List String) × List Effect
  | [] => (some [], [])
  | (name, _c) :: rest =>
    match (env.service name).list_resource_templates with
    | none => (none, [.upstreamListResourceTemplates name])
    | some ts =>
      match Relay.list_resource_templates_go env rest with
      | (some acc, e) => (some (ts ++ acc), .upstreamListResourceTemplates name :: e)
      | (none, e) => (none, .upstreamListResourceTemplates name :: e)

/-- `Relay::list_resource_templates` (relay.rs 116-145). -/
def Relay.list_resource_templates (r : Relay) (env : Env) (ps : PoolState) :
    Outcome (List String) × PoolState × List Effect :=
  match ConnectionPool.iter r.state.targets env ps with
  | (some conns, ps2, e) =>
    match Relay.list_resource_templates_go env conns with
    | (some ts, e2) => (.ok ts, ps2, e ++ e2)
    | (none, e2) => (.panic, ps2, e ++ e2)
  | (none, ps2, e) => (.panic, ps2, e)

/-- `Relay::call_tool` (relay.rs 240-265): RBAC-validate the namespaced
name first (deny → `invalid_request "not allowed"`, no I/O); then
`split_once(':')` (`.unwrap()` — no colon panics); then `pool.get` for the
service prefix (`.unwrap()` — absent target or failed dial panics); then
issue the upstream `call_tool` with the suffix and the unchanged arguments
(its error is `.unwrap()`ed). -/
def Relay.call_tool (r : Relay) (env : Env) (ps : PoolState) (name : Str) (args : Args) :
    Outcome String × PoolState × List Effect :=
  if r.state.policies.validate (.tool name) r.id = false then
    (.invalidRequest "not allowed", ps, [])
  else
    match splitOnce ':' name with
    | none => (.panic, ps, [])
    | some (service_name, tool) =>
      match ConnectionPool.get r.state.targets env ps service_name with
      | (.conn _c, ps2, e) =>
        match (env.service service_name).call_tool tool args with
        | some result => (.ok result, ps2, e ++ [.upstreamCallTool service_name tool args])
        | none => (.panic, ps2, e ++ [.upstreamCallTool service_name tool args])
      | (.absent, ps2, e) => (.panic, ps2, e)
      | (.panic, ps2, e) => (.panic, ps2, e)

/-- `Relay::get_prompt` (relay.rs 178-202): same shape as `call_tool` with
the `Prompt` resource kind and the upstream `get_prompt`. -/
def Relay.get_prompt (r : Relay) (env : Env) (ps : PoolState) (name : Str) (args : Args) :
    Outcome String × PoolState × List Effect :=
  if r.state.policies.validate (.prompt name) r.id = false then
    (.invalidRequest "not allowed", ps, [])
  else
    match splitOnce ':' name with
    | none => (.panic, ps, [])
    | some (service_name, tool) =>
      match ConnectionPool.get r.state.targets env ps service_name with
      | (.conn _c, ps2, e) =>
        match (env.service service_name).get_prompt tool args with
        | some result => (.ok result, ps2, e ++ [.upstreamGetPrompt service_name tool args])
        | none => (.panic, ps2, e ++ [.upstreamGetPrompt service_name tool args])
      | (.absent, ps2, e) => (.panic, ps2, e)
      | (.panic, ps2, e) => (.panic, ps2, e)

/-- `Relay::read_resource` (relay.rs 88-114): RBAC-validate the URI first
(deny → `invalid_request "not allowed"`, no I/O); then `pool.get` keyed by
the URI itself (`.unwrap()`); then the upstream `read_resource`. -/
def Relay.read_resource (r : Relay) (env : Env) (ps : PoolState) (uri : Str) :
    Outcome String × PoolState × List Effect :=
  if r.state.policies.validate (.resource uri) r.id = false then
    (.invalidRequest "not allowed", ps, [])
  else
    match ConnectionPool.get r.state.targets env ps uri with
    | (.conn _c, ps2, e) =>
      match (env.service uri).read_resource uri with
      | some result => (.ok result, ps2, e ++ [.upstreamReadResource uri])
      | none => (.panic, ps2, e ++ [.upstreamReadResource uri])
    | (.absent, ps2, e) => (.panic, ps2, e)
    | (.panic, ps2, e) => (.panic, ps2, e)

/-- `session_id` (sse.rs 31-34): `format!("{:016x}", rand::random::<u128>())`.
The random draw is made explicit as the `Nat` argument (reduced mod 2^128
as a `u128`); `{:016x}` renders lowercase hexadecimal zero-padded to a
MINIMUM width of 16 characters. -/
def session_id (randomVal : Nat) : Str :=
  let digits := Nat.toDigits 16 (randomVal % 2 ^ 128)
  List.replicate (16 - digits.length) '0' ++ digits

/-- An `mpsc::Sender<ClientJsonRpcMessage>` as observed by
`post_event_handler`: sending fails exactly when the receiving side is
gone (the session's worker terminated). -/
structure Sender where
  closed : Bool
deriving DecidableEq

/-- `post_event_handler` (sse.rs 125-144): look the session id up in the
`txs` table (`404` when absent), then `tx.send(message)` (`410` when the
channel is closed, `202` when the message is enqueued). -/
def post_event_handler (txs : List (Str × Sender)) (session_id : Str) :
    Except Nat Nat :=
  match lookup session_id txs with
  | none => .error 404
  | some tx => if tx.closed then .error 410 else .ok 202

/-- The relay construction performed per SSE session by `sse_handler`
(sse.rs 149-195): derive the identity from the optional JWT claims and the
optional PROXY-protocol peer, and build a fresh `Relay` (with, via
`Relay::new`, its own fresh connection pool) for this session. -/
def sse_session (app_state : XdsStore) (claims : Option String) (peer : Option String) :
    Relay × PoolState :=
  Relay.new app_state (Identity.new claims peer)

/-!
Interleaving model of two concurrent `ConnectionPool::get(name)` calls.

In the source, `get` (relay.rs 283-309) reads `by_name` under a read lock,
on a miss reads the registry, then DROPS the read lock and awaits
`connect`, which dials and only then takes the write lock to insert.  Two
`get`s may therefore both observe the miss before either inserts.  Each
caller is a small state machine; `.start → .dialing` is the check made
under the read lock, `.dialing → .finished` is the whole
`connect` (dial + insert) taken atomically — coarser than the source, so
every behaviour of this model is a behaviour of the source.
-/

/-- Progress of one in-flight `ConnectionPool::get` call. -/
inductive GetPhase
  | start
  | dialing (t : Target)
  | finished (res : Option Nat)
deriving DecidableEq

/-- Shared pool plus the two callers' phases and the log of dials. -/
structure RaceState where
  pool : PoolState
  dials : List Str
  a : GetPhase
  b : GetPhase
deriving DecidableEq

/-- One step of one `get(name)` caller against the shared pool. -/
def stepPhase (targets : List (Str × Target)) (name : Str) (ph : GetPhase) (ps : PoolState)
    (dials : List Str) : GetPhase × PoolState × List Str :=
  match ph with
  | .start =>
    (match lookup name ps.by_name with
     | some c => (.finished (some c), ps, dials)
     | none =>
       match lookup name targets with
       | some t => (.dialing t, ps, dials)
       | none => (.finished none, ps, dials))
  | .dialing t =>
    (.finished (some ps.next),
     ⟨(t.name, ps.next) :: ps.by_name, ps.next + 1⟩,
     dials ++ [t.name])
  | .finished r => (.finished r, ps, dials)

/-- Schedule one step of caller `a` (`true`) or caller `b` (`false`). -/
def stepRace (targets : List (Str × Target)) (name : Str) (s : RaceState) (who : Bool) : RaceState :=
  if who then
    match stepPhase targets name s.a s.pool s.dials with
    | (ph, ps, ds) => { s with a := ph, pool := ps, dials := ds }
  else
    match stepPhase targets name s.b s.pool s.dials with
    | (ph, ps, ds) => { s with b := ph, pool := ps, dials := ds }

/-- Run a schedule of interleaved steps. -/
def runRace (targets : List (Str × Target)) (name : Str) : List Bool → RaceState → RaceState
  | [], s => s
  | w :: ws, s => runRace targets name ws (stepRace targets name s w)

/-- Both callers idle at the start, pool fresh, no dials yet. -/
def raceInit : RaceState := ⟨PoolState.empty, [], .start, .start⟩

/-!
Concrete fixtures used by the witness and counterexample theorems.
-/

/-- A policy set that allows everything. -/
def allowAll : Policies := ⟨fun _ _ => true⟩

/-- The empty rule set: by the engine's deny-by-default ground it denies
everything. -/
def denyAll : Policies := ⟨fun _ _ => false⟩

/-- The anonymous identity (no JWT claims, no peer identity). -/
def anon : Identity := ⟨none, none⟩

/-- The target name "a". -/
def aName : Str := ['a']

/-- The target name "b". -/
def bName : Str := ['b']

/-- The upstream tool name "hi". -/
def hiName : Str := ['h', 'i']

/-- The namespaced name "a:hi". -/
def aHi : Str := ['a', ':', 'h', 'i']

/-- A registered SSE target named "a". -/
def targetA : Target := ⟨aName, .sse "h" 80⟩

/-- A registered SSE target named "b". -/
def targetB : Target := ⟨bName, .sse "h" 81⟩

/-- The tool "hi" as exposed by an upstream. -/
def hiTool : Tool := ⟨hiName, some "says hi", "schema-hi"⟩

/-- A healthy upstream exposing tool "hi". -/
def svcA : UpstreamService :=
  { list_tools := some [hiTool],
    call_tool := fun _ _ => some "ok",
    list_prompts := some ["pr"],
    get_prompt := fun _ _ => some "gp",
    list_resources := some ["re"],
    read_resource := fun _ => some "rr",
    list_resource_templates := some ["rt"] }

/-- An upstream whose every call fails. -/
def svcFail : UpstreamService :=
  { list_tools := none,
    call_tool := fun _ _ => none,
    list_prompts := none,
    get_prompt := fun _ _ => none,
    list_resources := none,
    read_resource := fun _ => none,
    list_resource_templates := none }

/-- Every target dials fine and behaves like `svcA`. -/
def envA : Env := ⟨fun _ => svcA, fun _ => true⟩

/-- Target "b" is broken (every upstream call fails); the rest behave like
`svcA`; all dials succeed. -/
def envAB : Env := ⟨fun n => if n = bName then svcFail else svcA, fun _ => true⟩

/-- Registry with the single target "a", allow-all policy. -/
def storeA : XdsStore := ⟨[(aName, targetA)], allowAll⟩

/-- Registry with the single target "a", empty (deny-by-default) policy. -/
def storeADeny : XdsStore := ⟨[(aName, targetA)], denyAll⟩

/-- An empty registry, allow-all policy. -/
def storeNone : XdsStore := ⟨[], allowAll⟩

/-- Registry with targets "a" and "b", allow-all policy. -/
def storeAB : XdsStore := ⟨[(aName, targetA), (bName, targetB)], allowAll⟩

/-!
Helper lemmas.
-/

/-- Splitting a well-formed namespaced identifier: when the prefix contains
no separator, `split_once` cuts exactly at the separator inserted between
prefix and suffix. -/
theorem splitOnce_append (c : Char) (s t : Str) (h : c ∉ s) :
    splitOnce c (s ++ c :: t) = some (s, t) := by
  induction s with
  | nil => simp [splitOnce]
  | cons x xs ih =>
    have hx : ¬ x = c := fun hh => h (List.mem_cons.mpr (Or.inl hh.symm))
    have hxs : c ∉ xs := fun hh => h (List.mem_cons_of_mem _ hh)
    simp [splitOnce, hx, ih hxs]

/-- A successful `pool.iter()` yields one connection per registry snapshot
entry, keyed in snapshot order. -/
theorem iterTargets_names (targets : List (Str × Target)) (env : Env) :
    ∀ (l : List (Str × Target)) (ps : PoolState) (conns : List (Str × Nat))
      (ps' : PoolState) (e : List Effect),
      ConnectionPool.iterTargets targets env l ps = (some conns, ps', e) →
      conns.map Prod.fst = l.map Prod.fst := by
  intro l
  induction l with
  | nil =>
    intro ps conns ps' e h
    simp only [ConnectionPool.iterTargets, Prod.mk.injEq, Option.some.injEq] at h
    simp [← h.1]
  | cons p rest ih =>
    intro ps conns ps' e h
    obtain ⟨name, t⟩ := p
    simp only [ConnectionPool.iterTargets] at h
    rcases hg : ConnectionPool.get targets env ps name with ⟨pg, ps2, e2⟩
    rw [hg] at h
    cases pg with
    | conn c =>
      dsimp only at h
      rcases hrec : ConnectionPool.iterTargets targets env rest ps2 with ⟨o3, ps3, e3⟩
      rw [hrec] at h
      cases o3 with
      | some conns3 =>
        simp only [Prod.mk.injEq, Option.some.injEq] at h
        rw [← h.1]
        simpa using ih ps2 conns3 ps3 e3 hrec
      | none => simp at h
    | absent => simp at h
    | panic => simp at h

/-- Every tool of every successfully listed upstream reappears in the
merged `list_tools` result under its `target:tool` name with description
and input schema unchanged. -/
theorem list_tools_go_mem (env : Env) :
    ∀ (l : List (Str × Nat)) (tools : List Tool) (e : List Effect),
      Relay.list_tools_go env l = (some tools, e) →
      ∀ (name : Str) (uts : List Tool) (ut : Tool),
        name ∈ l.map Prod.fst →
        (env.service name).list_tools = some uts → ut ∈ uts →
        (⟨name ++ ':' :: ut.name, ut.description, ut.input_schema⟩ : Tool) ∈ tools := by
  intro l
  induction l with
  | nil => intro tools e h name uts ut hmem; simp at hmem
  | cons p rest ih =>
    intro tools e h name uts ut hmem henv hut
    obtain ⟨n, c⟩ := p
    simp only [Relay.list_tools_go] at h
    rcases hsvc : (env.service n).list_tools with _ | res
    · rw [hsvc] at h; simp at h
    · rw [hsvc] at h
      dsimp only at h
      rcases hrec : Relay.list_tools_go env rest with ⟨o2, e2⟩
      rw [hrec] at h
      cases o2 with
      | none => simp at h
      | some tl =>
        simp only [Prod.mk.injEq, Option.some.injEq] at h
        rw [← h.1]
        simp only [List.map_cons, List.mem_cons] at hmem
        rcases hmem with hmem | hmem
        · subst hmem
          rw [hsvc] at henv
          obtain rfl : res = uts := by injection henv
          exact List.mem_append.mpr (Or.inl (List.mem_map_of_mem _ hut))
        · exact List.mem_append.mpr (Or.inr (ih tl e2 hrec name uts ut hmem henv hut))

/-- If some connection in the batch belongs to a target whose upstream
`list_tools` fails, the merge loop panics. -/
theorem list_tools_go_fail (env : Env) :
    ∀ (l : List (Str × Nat)) (name : Str),
      name ∈ l.map Prod.fst → (env.service name).list_tools = none →
      (Relay.list_tools_go env l).1 = none := by
  intro l
  induction l with
  | nil => intro name h _; simp at h
  | cons p rest ih =>
    intro name hmem henv
    obtain ⟨n, c⟩ := p
    simp only [Relay.list_tools_go]
    rcases hsvc : (env.service n).list_tools with _ | res
    · simp
    · simp only [List.map_cons, List.mem_cons] at hmem
      rcases hmem with hmem | hmem
      · subst hmem; rw [hsvc] at henv; cases henv
      · have h2 := ih name hmem henv
        rcases hrec : Relay.list_tools_go env rest with ⟨o2, e2⟩
        rw [hrec] at h2
        simp only at h2
        subst h2
        simp [hrec]

/-- Same failure propagation for the prompts fan-out. -/
theorem list_prompts_go_fail (env : Env) :
    ∀ (l : List (Str × Nat)) (name : Str),
      name ∈ l.map Prod.fst → (env.service name).list_prompts = none →
      (Relay.list_prompts_go env l).1 = none := by
  intro l
  induction l with
  | nil => intro name h _; simp at h
  | cons p rest ih =>
    intro name hmem henv
    obtain ⟨n, c⟩ := p
    simp only [Relay.list_prompts_go]
    rcases hsvc : (env.service n).list_prompts with _ | res
    · simp
    · simp only [List.map_cons, List.mem_cons] at hmem
      rcases hmem with hmem | hmem
      · subst hmem; rw [hsvc] at henv; cases henv
      · have h2 := ih name hmem henv
        rcases hrec : Relay.list_prompts_go env rest with ⟨o2, e2⟩
        rw [hrec] at h2
        simp only at h2
        subst h2
        simp [hrec]

/-- Same failure propagation for the resources fan-out. -/
theorem list_resources_go_fail (env : Env) :
    ∀ (l : List (Str × Nat)) (name : Str),
      name ∈ l.map Prod.fst → (env.service name).list_resources = none →
      (Relay.list_resources_go env l).1 = none := by
  intro l
  induction l with
  | nil => intro name h _; simp at h
  | cons p rest ih =>
    intro name hmem henv
    obtain ⟨n, c⟩ := p
    simp only [Relay.list_resources_go]
    rcases hsvc : (env.service n).list_resources with _ | res
    · simp
    · simp only [List.map_cons, List.mem_cons] at hmem
      rcases hmem with hmem | hmem
      · subst hmem; rw [hsvc] at henv; cases henv
      · have h2 := ih name hmem henv
        rcases hrec : Relay.list_resources_go env rest with ⟨o2, e2⟩
        rw [hrec] at h2
        simp only at h2
        subst h2
        simp [hrec]

/-- Same failure propagation for the resource-templates fan-out. -/
theorem list_resource_templates_go_fail (env : Env) :
    ∀ (l : List (Str × Nat)) (name : Str),
      name ∈ l.map Prod.fst → (env.service name).list_resource_templates = none →
      (Relay.list_resource_templates_go env l).1 = none := by
  intro l
  induction l with
  | nil => intro name h _; simp at h
  | cons p rest ih =>
    intro name hmem henv
    obtain ⟨n, c⟩ := p
    simp only [Relay.list_resource_templates_go]
    rcases hsvc : (env.service n).list_resource_templates with _ | res
    · simp
    · simp only [List.map_cons, List.mem_cons] at hmem
      rcases hmem with hmem | hmem
      · subst hmem; rw [hsvc] at henv; cases henv
      · have h2 := ih name hmem henv
        rcases hrec : Relay.list_resource_templates_go env rest with ⟨o2, e2⟩
        rw [hrec] at h2
        simp only at h2
        subst h2
        simp [hrec]

/-!
Claim theorems.
-/

/-- C1: for `call_tool`, `get_prompt` and `read_resource`, the RBAC
`validate` check on the namespaced identifier comes before any upstream
I/O: when validation denies, the operation returns the
`invalid_request "not allowed"` error, leaves the pool untouched, and the
upstream effect log is empty (no connection obtained, no upstream call). -/
theorem relay_rbac_deny_no_upstream (r : Relay) (env : Env) (ps : PoolState)
    (name uri : Str) (args : Args) :
    (r.state.policies.validate (.tool name) r.id = false →
      Relay.call_tool r env ps name args = (.invalidRequest "not allowed", ps, [])) ∧
    (r.state.policies.validate (.prompt name) r.id = false →
      Relay.get_prompt r env ps name args = (.invalidRequest "not allowed", ps, [])) ∧
    (r.state.policies.validate (.resource uri) r.id = false →
      Relay.read_resource r env ps uri = (.invalidRequest "not allowed", ps, [])) := by
  refine ⟨fun h => ?_, fun h => ?_, fun h => ?_⟩
  · simp [Relay.call_tool, h]
  · simp [Relay.get_prompt, h]
  · simp [Relay.read_resource, h]

/-- Witness for C1: with the empty (deny-by-default) rule set, all three
guarded operations on concrete inputs return `invalid_request "not
allowed"` with no upstream effect. -/
theorem relay_rbac_deny_no_upstream_witness :
    storeADeny.policies.validate (.tool aHi) anon = false ∧
    Relay.call_tool ⟨storeADeny, anon⟩ envA PoolState.empty aHi none
      = (.invalidRequest "not allowed", PoolState.empty, []) ∧
    Relay.get_prompt ⟨storeADeny, anon⟩ envA PoolState.empty aHi none
      = (.invalidRequest "not allowed", PoolState.empty, []) ∧
    Relay.read_resource ⟨storeADeny, anon⟩ envA PoolState.empty aHi
      = (.invalidRequest "not allowed", PoolState.empty, []) :=
  ⟨by decide,
   (relay_rbac_deny_no_upstream ⟨storeADeny, anon⟩ envA PoolState.empty aHi aHi none).1
     (by decide),
   (relay_rbac_deny_no_upstream ⟨storeADeny, anon⟩ envA PoolState.empty aHi aHi none).2.1
     (by decide),
   (relay_rbac_deny_no_upstream ⟨storeADeny, anon⟩ envA PoolState.empty aHi aHi none).2.2
     (by decide)⟩

/-- C4 counterexample: a `call_tool` whose identifier "hi" contains no
colon, with a policy that allows it, panics (the `.unwrap()` of
`split_once` at relay.rs 255) instead of returning an invalid-request
error. -/
theorem call_tool_no_colon_cex :
    Relay.call_tool ⟨storeA, anon⟩ envA PoolState.empty hiName none
      = (.panic, PoolState.empty, []) := by decide

/-- C4 amended: for a `call_tool` or `get_prompt` identifier with no `:`,
the relay returns `invalid_request "not allowed"` when RBAC denies it, and
panics at the `split_once(..).unwrap()` when RBAC allows it; in both cases
no upstream is reached (empty effect log). -/
theorem relay_no_colon_behaviour (r : Relay) (env : Env) (ps : PoolState)
    (name : Str) (args : Args) (hsplit : splitOnce ':' name = none) :
    (r.state.policies.validate (.tool name) r.id = true →
      Relay.call_tool r env ps name args = (.panic, ps, [])) ∧
    (r.state.policies.validate (.tool name) r.id = false →
      Relay.call_tool r env ps name args = (.invalidRequest "not allowed", ps, [])) ∧
    (r.state.policies.validate (.prompt name) r.id = true →
      Relay.get_prompt r env ps name args = (.panic, ps, [])) ∧
    (r.state.policies.validate (.prompt name) r.id = false →
      Relay.get_prompt r env ps name args = (.invalidRequest "not allowed", ps, [])) := by
  refine ⟨fun h => ?_, fun h => ?_, fun h => ?_, fun h => ?_⟩
  · simp [Relay.call_tool, h, hsplit]
  · simp [Relay.call_tool, h]
  · simp [Relay.get_prompt, h, hsplit]
  · simp [Relay.get_prompt, h]

/-- Witness for the amended C4 at the concrete identifier "hi". -/
theorem relay_no_colon_behaviour_witness :
    splitOnce ':' hiName = none ∧
    Relay.call_tool ⟨storeA, anon⟩ envA PoolState.empty hiName none
      = (.panic, PoolState.empty, []) ∧
    Relay.get_prompt ⟨storeADeny, anon⟩ envA PoolState.empty hiName none
      = (.invalidRequest "not allowed", PoolState.empty, []) :=
  ⟨by decide,
   (relay_no_colon_behaviour ⟨storeA, anon⟩ envA PoolState.empty hiName none
     (by decide)).1 (by decide),
   (relay_no_colon_behaviour ⟨storeADeny, anon⟩ envA PoolState.empty hiName none
     (by decide)).2.2.2 (by decide)⟩

/-- C5 counterexample: `call_tool("a:hi")` with the target "a" neither in
the registry nor in the pool panics (the `.unwrap()` of the `None` from
`ConnectionPool::get` at relay.rs 257) instead of returning an "unknown
target" error. -/
theorem call_tool_unknown_target_cex :
    Relay.call_tool ⟨storeNone, anon⟩ envA PoolState.empty aHi none
      = (.panic, PoolState.empty, []) := by decide

/-- C5 amended: `ConnectionPool::get` does return no connection (`None`)
when the name is absent from both the pool and the registry, but
`call_tool` then panics at `pool.get(..).unwrap()` rather than returning an
"unknown target" error; no upstream I/O happens. -/
theorem call_tool_unknown_target (r : Relay) (env : Env) (ps : PoolState)
    (s u : Str) (args : Args)
    (hv : r.state.policies.validate (.tool (s ++ ':' :: u)) r.id = true)
    (hcolon : ':' ∉ s)
    (hpool : lookup s ps.by_name = none)
    (hreg : lookup s r.state.targets = none) :
    ConnectionPool.get r.state.targets env ps s = (.absent, ps, []) ∧
    Relay.call_tool r env ps (s ++ ':' :: u) args = (.panic, ps, []) := by
  have hget : ConnectionPool.get r.state.targets env ps s = (.absent, ps, []) := by
    simp [ConnectionPool.get, hpool, hreg]
  refine ⟨hget, ?_⟩
  simp [Relay.call_tool, hv, splitOnce_append ':' s u hcolon, hget]

/-- Witness for the amended C5 at the concrete request "a:hi" against an
empty registry. -/
theorem call_tool_unknown_target_witness :
    lookup aName storeNone.targets = none ∧
    ConnectionPool.get storeNone.targets envA PoolState.empty aName
      = (.absent, PoolState.empty, []) ∧
    Relay.call_tool ⟨storeNone, anon⟩ envA PoolState.empty (aName ++ ':' :: hiName) none
      = (.panic, PoolState.empty, []) :=
  ⟨by decide,
   (call_tool_unknown_target ⟨storeNone, anon⟩ envA PoolState.empty aName hiName none
     (by decide) (by decide) (by decide) (by decide)).1,
   (call_tool_unknown_target ⟨storeNone, anon⟩ envA PoolState.empty aName hiName none
     (by decide) (by decide) (by decide) (by decide)).2⟩

/-- C6: `list_tools` consults neither the RBAC policies nor the caller's
identity: two relays over the same registry but arbitrary different
policies and identities produce identical `list_tools` results (outcome,
pool state and effects). -/
theorem list_tools_identity_independent (targets : List (Str × Target))
    (pol1 pol2 : Policies) (id1 id2 : Identity) (env : Env) (ps : PoolState) :
    Relay.list_tools ⟨⟨targets, pol1⟩, id1⟩ env ps
      = Relay.list_tools ⟨⟨targets, pol2⟩, id2⟩ env ps := rfl

/-- C8: `POST /sse?sessionId=..` returns 404 when the session id is not in
the table, 202 when the message is enqueued to the session's open channel,
and 410 when the session's channel is closed. -/
theorem post_event_handler_status (txs : List (Str × Sender)) (sid : Str) :
    (lookup sid txs = none → post_event_handler txs sid = .error 404) ∧
    (∀ tx : Sender, lookup sid txs = some tx → tx.closed = false →
      post_event_handler txs sid = .ok 202) ∧
    (∀ tx : Sender, lookup sid txs = some tx → tx.closed = true →
      post_event_handler txs sid = .error 410) := by
  refine ⟨fun h => ?_, fun tx h hc => ?_, fun tx h hc => ?_⟩
  · simp [post_event_handler, h]
  · simp [post_event_handler, h, hc]
  · simp [post_event_handler, h, hc]

/-- Witness for C8 on a concrete two-session table: a live session, a
terminated session, and an unknown id. -/
theorem post_event_handler_status_witness :
    post_event_handler [(['s'], ⟨false⟩), (['t'], ⟨true⟩)] ['u'] = .error 404 ∧
    post_event_handler [(['s'], ⟨false⟩), (['t'], ⟨true⟩)] ['s'] = .ok 202 ∧
    post_event_handler [(['s'], ⟨false⟩), (['t'], ⟨true⟩)] ['t'] = .error 410 :=
  ⟨(post_event_handler_status [(['s'], ⟨false⟩), (['t'], ⟨true⟩)] ['u']).1 (by decide),
   (post_event_handler_status [(['s'], ⟨false⟩), (['t'], ⟨true⟩)] ['s']).2.1
     ⟨false⟩ (by decide) (by decide),
   (post_event_handler_status [(['s'], ⟨false⟩), (['t'], ⟨true⟩)] ['t']).2.2
     ⟨true⟩ (by decide) (by decide)⟩

/-- C10: every `Relay::new` carries its own freshly constructed empty
connection pool, the SSE bridge builds such a fresh relay per session, and
a fresh session's first `get` for a registered target performs its own dial
(whatever any other session's pool holds), returning a newly allocated
handle. -/
theorem session_fresh_pool (st : XdsStore) (c p : Option String)
    (i : Identity) (n : Str) (t : Target) (env : Env)
    (hreg : lookup n st.targets = some t)
    (hdial : env.dial_ok t.name = true) :
    sse_session st c p = (⟨st, Identity.new c p⟩, PoolState.empty) ∧
    (Relay.new st i).2 = PoolState.empty ∧
    ConnectionPool.get st.targets env PoolState.empty n
      = (.conn 0, ⟨[(t.name, 0)], 1⟩, [.dial t.name]) := by
  refine ⟨rfl, rfl, ?_⟩
  simp [ConnectionPool.get, PoolState.empty, lookup, hreg, ConnectionPool.connect, hdial]

/-- Witness for C10: a fresh session against the registry holding target
"a" starts with the empty pool and its first `get("a")` dials "a". -/
theorem session_fresh_pool_witness :
    sse_session storeA none none = (⟨storeA, Identity.new none none⟩, PoolState.empty) ∧
    ConnectionPool.get storeA.targets envA PoolState.empty aName
      = (.conn 0, ⟨[(aName, 0)], 1⟩, [.dial aName]) :=
  ⟨(session_fresh_pool storeA none none anon aName targetA envA
      (by decide) (by decide)).1,
   (session_fresh_pool storeA none none anon aName targetA envA
      (by decide) (by decide)).2.2⟩

/-- C2: namespacing round-trip.  First, every tool `U` of a registered
target `S` whose listing succeeds appears in a successful `list_tools`
result under the name `S:U` with description and input schema unchanged.
Second, `call_tool("S:U", a)` (RBAC allowing, `S` colon-free, a connection
obtained) splits at the first `:` and issues the upstream `call_tool` on
target `S` with name `U` and the unchanged arguments `a`. -/
theorem namespacing_roundtrip :
    (∀ (r : Relay) (env : Env) (ps : PoolState) (tools : List Tool)
       (ps' : PoolState) (e : List Effect) (s : Str) (t : Target)
       (uts : List Tool) (ut : Tool),
       Relay.list_tools r env ps = (.ok tools, ps', e) →
       (s, t) ∈ r.state.targets →
       (env.service s).list_tools = some uts → ut ∈ uts →
       (⟨s ++ ':' :: ut.name, ut.description, ut.input_schema⟩ : Tool) ∈ tools) ∧
    (∀ (r : Relay) (env : Env) (ps : PoolState) (s u : Str) (args : Args)
       (c : Nat) (ps2 : PoolState) (e : List Effect),
       r.state.policies.validate (.tool (s ++ ':' :: u)) r.id = true →
       ':' ∉ s →
       ConnectionPool.get r.state.targets env ps s = (.conn c, ps2, e) →
       Relay.call_tool r env ps (s ++ ':' :: u) args
         = ((match (env.service s).call_tool u args with
             | some result => Outcome.ok result
             | none => Outcome.panic), ps2,
            e ++ [Effect.upstreamCallTool s u args])) := by
  constructor
  · intro r env ps tools ps' e s t uts ut h hmem henv hut
    unfold Relay.list_tools at h
    rcases hiter : ConnectionPool.iter r.state.targets env ps with ⟨o, psI, eI⟩
    rw [hiter] at h
    cases o with
    | none => simp at h
    | some conns =>
      dsimp only at h
      rcases hgo : Relay.list_tools_go env conns with ⟨og, eg⟩
      rw [hgo] at h
      cases og with
      | none => simp at h
      | some tools2 =>
        simp only [Prod.mk.injEq, Outcome.ok.injEq] at h
        obtain ⟨h1, _h2, _h3⟩ := h
        subst h1
        have hnames := iterTargets_names r.state.targets env r.state.targets ps
          conns psI eI hiter
        have hs : s ∈ List.map Prod.fst conns := by
          rw [hnames]; exact List.mem_map_of_mem Prod.fst hmem
        exact list_tools_go_mem env conns tools2 eg hgo s uts ut hs henv hut
  · intro r env ps s u args c ps2 e hv hcolon hget
    rcases hct : (env.service s).call_tool u args with _ | res
    · simp [Relay.call_tool, hv, splitOnce_append ':' s u hcolon, hget, hct]
    · simp [Relay.call_tool, hv, splitOnce_append ':' s u hcolon, hget, hct]

/-- Witness for C2: target "a" exposing tool "hi" yields the listed entry
"a:hi" (description and schema intact), and `call_tool("a:hi")` reaches
upstream "a" with tool name "hi" and the unchanged (absent) arguments. -/
theorem namespacing_roundtrip_witness :
    (⟨aName ++ ':' :: hiName, some "says hi", "schema-hi"⟩ : Tool)
      ∈ [(⟨aHi, some "says hi", "schema-hi"⟩ : Tool)] ∧
    Relay.call_tool ⟨storeA, anon⟩ envA PoolState.empty (aName ++ ':' :: hiName) none
      = (.ok "ok", ⟨[(aName, 0)], 1⟩,
         [.dial aName, .upstreamCallTool aName hiName none]) := by
  constructor
  · exact namespacing_roundtrip.1 ⟨storeA, anon⟩ envA PoolState.empty
      [⟨aHi, some "says hi", "schema-hi"⟩] ⟨[(aName, 0)], 1⟩
      [.dial aName, .upstreamListTools aName] aName targetA [hiTool] hiTool
      (by decide) (by decide) (by decide) (by decide)
  · have h := namespacing_roundtrip.2 ⟨storeA, anon⟩ envA PoolState.empty aName hiName
      none 0 ⟨[(aName, 0)], 1⟩ [.dial aName] (by decide) (by decide) (by decide)
    exact h.trans (by decide)

/-- C9 counterexample: with target "a" healthy (one tool) and target "b"
whose upstream `list_tools` fails, the fan-out neither returns "a"'s
entries nor an error response: it panics at the per-target `.unwrap()`
after having performed "a"'s upstream call. -/
theorem fanout_failure_cex :
    Relay.list_tools ⟨storeAB, anon⟩ envAB PoolState.empty
      = (.panic, ⟨[(bName, 1), (aName, 0)], 2⟩,
         [.dial aName, .dial bName,
          .upstreamListTools aName, .upstreamListTools bName]) := by decide

/-- C9 amended: a fan-out list operation never returns a partial merged
result — if the upstream call of any registered target fails, the whole
operation produces no result at all (it panics at the per-target
`.unwrap()`) rather than a result containing the other targets' entries;
it does not return an error value either. -/
theorem fanout_atomic_failure (r : Relay) (env : Env) (ps : PoolState)
    (n : Str) (t : Target) (hmem : (n, t) ∈ r.state.targets) :
    ((env.service n).list_tools = none →
      (Relay.list_tools r env ps).1 = .panic) ∧
    ((env.service n).list_prompts = none →
      (Relay.list_prompts r env ps).1 = .panic) ∧
    ((env.service n).list_resources = none →
      (Relay.list_resources r env ps).1 = .panic) ∧
    ((env.service n).list_resource_templates = none →
      (Relay.list_resource_templates r env ps).1 = .panic) := by
  have hng : n ∈ List.map Prod.fst r.state.targets :=
    List.mem_map_of_mem Prod.fst hmem
  refine ⟨fun h => ?_, fun h => ?_, fun h => ?_, fun h => ?_⟩
  · rcases hiter : ConnectionPool.iter r.state.targets env ps with ⟨o, psI, eI⟩
    cases o with
    | none => simp [Relay.list_tools, hiter]
    | some conns =>
      have hn2 : n ∈ List.map Prod.fst conns := by
        rw [iterTargets_names r.state.targets env r.state.targets ps conns psI eI hiter]
        exact hng
      have hfail := list_tools_go_fail env conns n hn2 h
      rcases hgo : Relay.list_tools_go env conns with ⟨og, eg⟩
      rw [hgo] at hfail
      simp only at hfail
      subst hfail
      simp [Relay.list_tools, hiter, hgo]
  · rcases hiter : ConnectionPool.iter r.state.targets env ps with ⟨o, psI, eI⟩
    cases o with
    | none => simp [Relay.list_prompts, hiter]
    | some conns =>
      have hn2 : n ∈ List.map Prod.fst conns := by
        rw [iterTargets_names r.state.targets env r.state.targets ps conns psI eI hiter]
        exact hng
      have hfail := list_prompts_go_fail env conns n hn2 h
      rcases hgo : Relay.list_prompts_go env conns with ⟨og, eg⟩
      rw [hgo] at hfail
      simp only at hfail
      subst hfail
      simp [Relay.list_prompts, hiter, hgo]
  · rcases hiter : ConnectionPool.iter r.state.targets env ps with ⟨o, psI, eI⟩
    cases o with
    | none => simp [Relay.list_resources, hiter]
    | some conns =>
      have hn2 : n ∈ List.map Prod.fst conns := by
        rw [iterTargets_names r.state.targets env r.state.targets ps conns psI eI hiter]
        exact hng
      have hfail := list_resources_go_fail env conns n hn2 h
      rcases hgo : Relay.list_resources_go env conns with ⟨og, eg⟩
      rw [hgo] at hfail
      simp only at hfail
      subst hfail
      simp [Relay.list_resources, hiter, hgo]
  · rcases hiter : ConnectionPool.iter r.state.targets env ps with ⟨o, psI, eI⟩
    cases o with
    | none => simp [Relay.list_resource_templates, hiter]
    | some conns =>
      have hn2 : n ∈ List.map Prod.fst conns := by
        rw [iterTargets_names r.state.targets env r.state.targets ps conns psI eI hiter]
        exact hng
      have hfail := list_resource_templates_go_fail env conns n hn2 h
      rcases hgo : Relay.list_resource_templates_go env conns with ⟨og, eg⟩
      rw [hgo] at hfail
      simp only at hfail
      subst hfail
      simp [Relay.list_resource_templates, hiter, hgo]

/-- Witness for the amended C9: with target "b" broken, all four fan-out
list operations panic. -/
theorem fanout_atomic_failure_witness :
    (envAB.service bName).list_tools = none ∧
    (Relay.list_tools ⟨storeAB, anon⟩ envAB PoolState.empty).1 = .panic ∧
    (Relay.list_prompts ⟨storeAB, anon⟩ envAB PoolState.empty).1 = .panic ∧
    (Relay.list_resources ⟨storeAB, anon⟩ envAB PoolState.empty).1 = .panic ∧
    (Relay.list_resource_templates ⟨storeAB, anon⟩ envAB PoolState.empty).1 = .panic :=
  ⟨by decide,
   (fanout_atomic_failure ⟨storeAB, anon⟩ envAB PoolState.empty bName targetB
     (by decide)).1 (by decide),
   (fanout_atomic_failure ⟨storeAB, anon⟩ envAB PoolState.empty bName targetB
     (by decide)).2.1 (by decide),
   (fanout_atomic_failure ⟨storeAB, anon⟩ envAB PoolState.empty bName targetB
     (by decide)).2.2.1 (by decide),
   (fanout_atomic_failure ⟨storeAB, anon⟩ envAB PoolState.empty bName targetB
     (by decide)).2.2.2 (by decide)⟩

/-- C3 (code bug in the source): two concurrent `get("x")` calls on the
same absent registered name can BOTH observe the miss before either
inserts — the schedule a-check, b-check, a-dial, b-dial produces TWO dials
and hands the two callers DIFFERENT connection handles (0 and 1), with the
later insert shadowing the earlier; the sequential schedule keeps the
single-dial, shared-handle behaviour the claim demands. -/
theorem pool_get_race_two_dials :
    runRace storeA.targets aName [true, false, true, false] raceInit
      = ⟨⟨[(aName, 1), (aName, 0)], 2⟩, [aName, aName],
         .finished (some 0), .finished (some 1)⟩ ∧
    runRace storeA.targets aName [true, true, false] raceInit
      = ⟨⟨[(aName, 0)], 1⟩, [aName],
         .finished (some 0), .finished (some 0)⟩ := by decide

/-- C7 (code bug in the source): `format!("{:016x}", v)` zero-pads to a
MINIMUM width of 16, so the session id is not 32 lowercase hex characters:
the random draw 0 renders as 16 characters, and 2^64 renders as 17. -/
theorem session_id_not_32_hex :
    (session_id 0).length = 16 ∧
    session_id 0 = List.replicate 16 '0' ∧
    (session_id (2 ^ 64)).length = 17 := by decide

end McpProxy
